import Mathlib

/-!
Verification development for the boom BAM/SAM library.

The definitions below are a shallow embedding of the Go sources:
bytes are `Nat` values (< 256), byte buffers are `List Nat`, machine
integers are `Nat`/`Int` with explicit truncation where the Go code
truncates.  The codec (`marshalData`/`unmarshalData`), the auxiliary
tag codec (`parseAux`/`buildAux`), the nucleotide nybble tables, the
CIGAR accessors, the `Flags.String` renderer, and the file-handle /
fetch state machines are each translated from the corresponding Go
function, clause by clause.
-/

/-- Byte order selected at process start (`endian` in index.go, chosen from
`bam_is_big_endian()`).  All multi-byte codec operations take it as a
parameter. -/
inductive ByteOrder
  | little
  | big
deriving DecidableEq

/-- Serialize a 32-bit word to four bytes in the given byte order, as
`binary.Write` does for a `uint32` value.  Values are truncated to their low
32 bits byte by byte, matching the machine representation. -/
def writeU32 (e : ByteOrder) (v : Nat) : List Nat :=
  match e with
  | ByteOrder.little => [v % 256, v / 256 % 256, v / 65536 % 256, v / 16777216 % 256]
  | ByteOrder.big => [v / 16777216 % 256, v / 65536 % 256, v / 256 % 256, v % 256]

/-- Read a 32-bit word from four bytes in the given byte order, as
`binary.Read` does for a `uint32` value.  A buffer that does not hold exactly
four bytes yields 0 here; in the Go code `binary.Read` returns an error that
the caller turns into a panic, a path never taken on well-formed input. -/
def readU32 (e : ByteOrder) (bs : List Nat) : Nat :=
  match e, bs with
  | ByteOrder.little, [b0, b1, b2, b3] => b0 + 256 * b1 + 65536 * b2 + 16777216 * b3
  | ByteOrder.big, [b3, b2, b1, b0] => b0 + 256 * b1 + 65536 * b2 + 16777216 * b3
  | _, _ => 0

/-- Interpretation of a natural number as a Go `int32`: truncate to 32 bits
and read the result as two's complement. -/
def toInt32 (n : Nat) : Int :=
  if n % 4294967296 < 2147483648 then ((n % 4294967296 : Nat) : Int)
  else ((n % 4294967296 : Nat) : Int) - 4294967296

/-- Go error values surfaced by the library (index.go). -/
inductive GoError
  | valueIsNil
  | notBamFile
  | couldNotAllocate
  | noHeader
  | eof
deriving DecidableEq

/- SAM flag bits, as documented in index.go (`BAM_FPAIRED` .. `BAM_FDUP`). -/

def paired : Nat := 1
def properPair : Nat := 2
def unmapped : Nat := 4
def mateUnmapped : Nat := 8
def reverse : Nat := 16
def mateReverse : Nat := 32
def read1 : Nat := 64
def read2 : Nat := 128
def secondary : Nat := 256
def qCFail : Nat := 512
def duplicate : Nat := 1024

/-- Mask cleared by `Flags.String` when the paired bit is unset.  The source
lists `MateReverse` twice; the duplication is kept here. -/
def pairedMask : Nat :=
  properPair ||| mateUnmapped ||| mateReverse ||| mateReverse ||| read1 ||| read2

/-- The flag glyphs `pPuUrR12sfd` of `Flags.String`. -/
def flagChars : List Char := ['p', 'P', 'u', 'U', 'r', 'R', '1', '2', 's', 'f', 'd']

/-- Translation of `Flags.String` (index.go): if bit 0x01 is unset the
mate-dependent bits are cleared with `&^= pairedMask`, then each of the 11
positions shows its glyph when the bit is set and a dash otherwise. -/
def flagsString (f : Nat) : List Char :=
  let f2 := if f &&& 1 == 0 then Nat.ldiff f pairedMask else f
  flagChars.enum.map (fun ic => if f2 &&& (1 <<< ic.1) != 0 then ic.2 else '-')

/- CIGAR operations (record.go).  A `CigarOp` is a packed `uint32`: low four
bits are the operation type, the high 28 bits the run length. -/

/-- Type of a CIGAR operation: `co & 0xf`. -/
def cigarOpType (co : Nat) : Nat := co &&& 15

/-- Run length of a CIGAR operation: `co >> 4`. -/
def cigarOpLen (co : Nat) : Nat := co >>> 4

def CigarMatch : Nat := 0
def CigarInsertion : Nat := 1
def CigarDeletion : Nat := 2
def CigarSkipped : Nat := 3
def CigarSoftClipped : Nat := 4
def CigarHardClipped : Nat := 5
def CigarPadded : Nat := 6
def CigarEqual : Nat := 7
def CigarMismatch : Nat := 8

/-- Translation of `Record.End` (record.go): the start position plus the sum
of the lengths of the operations whose type equals `CigarMatch`. -/
def recordEnd (pos : Int) (cigar : List Nat) : Int :=
  pos + (cigar.foldl
    (fun mlen co => if cigarOpType co = CigarMatch then mlen + cigarOpLen co else mlen) 0 : Nat)

/-- Second definition for comparison, following the specification's words for
the end coordinate: start plus the summed lengths of operations whose type is
match, sequence-match, or sequence-mismatch. -/
def specEndMMX (pos : Int) (cigar : List Nat) : Int :=
  pos + ((cigar.filter
    (fun co => cigarOpType co == CigarMatch || cigarOpType co == CigarEqual ||
      cigarOpType co == CigarMismatch)).map cigarOpLen).sum

/- Nucleotide nybble tables (record.go). -/

/-- Reverse table `bamNT16TableRev`: the 16 symbols `=ACMGRSVTWYHKDBN` as
byte values, indexed by nybble code. -/
def bamNT16TableRevList : List Nat :=
  [61, 65, 67, 77, 71, 82, 83, 86, 84, 87, 89, 72, 75, 68, 66, 78]

/-- Nybble code to symbol byte. -/
def bamNT16TableRev (n : Nat) : Nat := bamNT16TableRevList.getD n 61

/-- Forward table `bamNT16Table`: 256 entries mapping a symbol byte to its
4-bit code, written row for row as in the source. -/
def bamNT16TableList : List Nat :=
  [15, 15, 15, 15, 15, 15, 15, 15, 15, 15, 15, 15, 15, 15, 15, 15,
   15, 15, 15, 15, 15, 15, 15, 15, 15, 15, 15, 15, 15, 15, 15, 15,
   15, 15, 15, 15, 15, 15, 15, 15, 15, 15, 15, 15, 15, 15, 15, 15,
   1, 2, 4, 8, 15, 15, 15, 15, 15, 15, 15, 15, 15, 0, 15, 15,
   15, 1, 14, 2, 13, 15, 15, 4, 11, 15, 15, 12, 15, 3, 15, 15,
   15, 15, 5, 6, 8, 15, 7, 9, 15, 10, 15, 15, 15, 15, 15, 15,
   15, 1, 14, 2, 13, 15, 15, 4, 11, 15, 15, 12, 15, 3, 15, 15,
   15, 15, 5, 6, 8, 15, 7, 9, 15, 10, 15, 15, 15, 15, 15, 15,
   15, 15, 15, 15, 15, 15, 15, 15, 15, 15, 15, 15, 15, 15, 15, 15,
   15, 15, 15, 15, 15, 15, 15, 15, 15, 15, 15, 15, 15, 15, 15, 15,
   15, 15, 15, 15, 15, 15, 15, 15, 15, 15, 15, 15, 15, 15, 15, 15,
   15, 15, 15, 15, 15, 15, 15, 15, 15, 15, 15, 15, 15, 15, 15, 15,
   15, 15, 15, 15, 15, 15, 15, 15, 15, 15, 15, 15, 15, 15, 15, 15,
   15, 15, 15, 15, 15, 15, 15, 15, 15, 15, 15, 15, 15, 15, 15, 15,
   15, 15, 15, 15, 15, 15, 15, 15, 15, 15, 15, 15, 15, 15, 15, 15,
   15, 15, 15, 15, 15, 15, 15, 15, 15, 15, 15, 15, 15, 15, 15, 15]

/-- Symbol byte to nybble code. -/
def bamNT16Table (c : Nat) : Nat := bamNT16TableList.getD c 15

/-- The 16 supported sequence symbols `=ACMGRSVTWYHKDBN` as byte values. -/
def nt16Symbols : List Nat :=
  [61, 65, 67, 77, 71, 82, 83, 86, 84, 87, 89, 72, 75, 68, 66, 78]

/-- All byte values the forward table recognizes, i.e. maps to a code other
than the generic 15: the 16 canonical symbols, their lower-case forms, and
the digits 0 to 3 (the letters n and N carry code 15, which is also the code
for N). -/
def nt16Recognized : List Nat :=
  nt16Symbols ++
  [97, 99, 109, 103, 114, 115, 118, 116, 119, 121, 104, 107, 100, 98, 110] ++
  [48, 49, 50, 51]

/-- Nybble packing of a sequence, from the marshalling loop
`sn[i>>1] |= bamNT16Table[c] << (4 * uint(^i&1))` in `marshalData`: byte `j`
holds the code of symbol `2j` in its high nybble and the code of symbol
`2j+1` (when present) in its low nybble. -/
def marshalSeqBytes (s : List Nat) : List Nat :=
  (List.range ((s.length + 1) / 2)).map (fun j =>
    (bamNT16Table (s.getD (2 * j) 0) <<< 4) |||
      (if 2 * j + 1 < s.length then bamNT16Table (s.getD (2 * j + 1) 0) else 0))

/-- Nybble unpacking of a sequence, from the corresponding loop in
`unmarshalData`: symbol `i` is decoded from the high (even `i`) or low
(odd `i`) nybble of packed byte `i / 2` through the reverse table. -/
def unmarshalSeqBytes (packed : List Nat) (lQqual : Nat) : List Nat :=
  (List.range lQqual).map (fun i =>
    let c := packed.getD (i / 2) 0
    if i % 2 == 0 then bamNT16TableRev (c >>> 4) else bamNT16TableRev (c &&& 15))

/- Auxiliary tag codec (record.go). -/

/-- The `jumps` table: payload width for the fixed-width tag types, -1 for
the variable-width types Z, H and B, 0 for unrecognized type bytes. -/
def jumps (t : Nat) : Int :=
  if t = 65 then 1
  else if t = 99 then 1
  else if t = 67 then 1
  else if t = 115 then 2
  else if t = 83 then 2
  else if t = 105 then 4
  else if t = 73 then 4
  else if t = 102 then 4
  else if t = 90 then -1
  else if t = 72 then -1
  else if t = 66 then -1
  else 0

/-- Index left in `j` by the Go scan `for j, v = range aux[i:]` that breaks
on the first zero byte: the index of the first zero, or the last index when
no zero occurs. -/
def zRangeLen (s : List Nat) : Nat :=
  match s.findIdx? (fun v => v == 0) with
  | some j => j
  | none => s.length - 1

/-- One step per recursion of the `parseAux` scan (record.go), carried out on
the suffix `aux[i:]` of the block; explicit fuel makes the recursion
structural (the scan in Go advances `i` by at least one byte per item, so the
fuel `aux.length + 1` used by `parseAux` is never exhausted on inputs the Go
code terminates on).  The branches that panic in Go (unrecognized type byte)
or never terminate (negative array width) return the empty list here. -/
def parseAuxRec (e : ByteOrder) : Nat → List Nat → List (List Nat)
  | 0, _ => []
  | fuel + 1, s =>
    if 2 < s.length then
      let t := s.getD 2 0
      if 0 < jumps t then
        s.take ((jumps t).toNat + 3) :: parseAuxRec e fuel (s.drop ((jumps t).toNat + 3))
      else if jumps t < 0 then
        if t = 90 ∨ t = 72 then
          s.take (zRangeLen s) :: parseAuxRec e fuel (s.drop (zRangeLen s + 1))
        else if t = 66 then
          let blen := toInt32 (readU32 e ((s.drop 4).take 4))
          let j := blen * jumps (s.getD 3 0) + 8
          s.take j.toNat :: parseAuxRec e fuel (s.drop j.toNat)
        else []
      else []
    else []

/-- Translation of `parseAux` (record.go): left-to-right scan of the aux
block into the raw byte spans of its items. -/
def parseAux (e : ByteOrder) (aux : List Nat) : List (List Nat) :=
  parseAuxRec e (aux.length + 1) aux

/-- Translation of `buildAux` (record.go): plain concatenation of the stored
spans, with no re-validation and no re-addition of Z/H terminators. -/
def buildAux (aa : List (List Nat)) : List Nat :=
  aa.flatMap (fun a => a)

/-- Well-formedness of a single aux item of fixed-width or array type, as the
wire format defines it: a fixed-width item is tag (2 bytes), type byte with
positive jump width, and exactly that many payload bytes; an array item is
tag, type byte B, element type byte with positive width w, a 4-byte element
count holding `(length - 8) / w`, and `count * w` payload bytes. -/
def WfAuxItem (e : ByteOrder) (it : List Nat) : Prop :=
  (0 < jumps (it.getD 2 0) ∧ (it.length : Int) = jumps (it.getD 2 0) + 3)
  ∨ (it.getD 2 0 = 66 ∧ 0 < jumps (it.getD 3 0) ∧ 8 ≤ it.length ∧
      (it.length - 8) % (jumps (it.getD 3 0)).toNat = 0 ∧
      (it.length - 8) / (jumps (it.getD 3 0)).toNat < 2147483648 ∧
      (it.drop 4).take 4 = writeU32 e ((it.length - 8) / (jumps (it.getD 3 0)).toNat))

instance (e : ByteOrder) (it : List Nat) : Decidable (WfAuxItem e it) := by
  unfold WfAuxItem; infer_instance

/- Record codec (record.go). -/

/-- The structured fields of a `Record` that the codec maps to and from the
payload bytes. -/
structure GoRecordFields where
  nameStr : List Nat
  cigar : List Nat
  seqBytes : List Nat
  qualScores : List Nat
  auxBytes : List Nat
  auxTags : List (List Nat)
deriving DecidableEq

/-- Output of `marshalData`: the four core description fields that the Go
method stores back into the `bam1_t` (`setLQname`, `setNCigar`, `setLQseq`,
`setLAux`, with the Go truncations `byte(len)+1`, `uint16(len)`,
`int32(len)`) together with the rebuilt payload. -/
structure MarshalOut where
  lQname : Nat
  nCigar : Nat
  lQseq : Int
  lAux : Int
  data : List Nat
deriving DecidableEq

/-- Translation of `Record.marshalData` (record.go): name plus nul
terminator, packed CIGAR words through `binary.Write`, nybble-packed
sequence, verbatim quality bytes, verbatim aux bytes. -/
def marshalData (e : ByteOrder) (r : GoRecordFields) : MarshalOut :=
  { lQname := (r.nameStr.length % 256 + 1) % 256
    nCigar := r.cigar.length % 65536
    lQseq := toInt32 r.seqBytes.length
    lAux := toInt32 r.auxBytes.length
    data := r.nameStr ++ [0] ++ r.cigar.flatMap (writeU32 e) ++
      marshalSeqBytes r.seqBytes ++ r.qualScores ++ r.auxBytes }

/-- Translation of the body of `Record.unmarshalData` (record.go), reading
the payload `d` in the context of the four description fields.  `lQname` and
`nCigar` arrive as the Go `byte` and `uint16` field values; the CIGAR slice
width is `nCigar << 2` computed in `uint16` as in the source; `lQseq` and
`lAux` arrive as `int32` values and are used as lengths (a negative value
panics in Go at `make`; here `Int.toNat` clamps it to zero).  Out-of-range
slices panic in Go and are clamped by `take`/`drop` here; neither case arises
for payloads produced by `marshalData`. -/
def unmarshalData (e : ByteOrder) (lQname nCigar : Nat) (lQseq lAux : Int)
    (d : List Nat) : GoRecordFields :=
  let name := d.take (lQname - 1)
  let rest1 := d.drop lQname
  let cigarLenBytes := (nCigar <<< 2) % 65536
  let cigarBytes := rest1.take cigarLenBytes
  let cigar := (List.range nCigar).map (fun j => readU32 e ((cigarBytes.drop (4 * j)).take 4))
  let rest2 := rest1.drop cigarLenBytes
  let lQqual := lQseq.toNat
  let nSeqBytes := (lQqual + 1) / 2
  let seq := unmarshalSeqBytes (rest2.take nSeqBytes) lQqual
  let rest3 := rest2.drop nSeqBytes
  let qual := rest3.take lQqual
  let rest4 := rest3.drop lQqual
  let aux := rest4.take lAux.toNat
  { nameStr := name
    cigar := cigar
    seqBytes := seq
    qualScores := qual
    auxBytes := aux
    auxTags := parseAux e aux }

/- Record state machine (record.go, index.go): lazy unmarshalling, the
`marshalled` consistency flag, accessors and mutators. -/

/-- The core `bam1_t` fields together with its payload, as wrapped by
`bamRecord`; a `Record` holds it behind a possibly nil pointer. -/
structure BamCoreModel where
  tid : Int
  pos : Int
  bin : Nat
  qual : Nat
  lQname : Nat
  flag : Nat
  nCigar : Nat
  lQseq : Int
  mtid : Int
  mpos : Int
  isize : Int
  lAux : Int
  data : List Nat
deriving DecidableEq

/-- Model of a `Record`: the optional `bam1_t` pointer, the two state flags,
and the cached derived fields. -/
structure RecModel where
  b : Option BamCoreModel
  unmarshalled : Bool
  marshalled : Bool
  nameStr : List Nat
  cigar : List Nat
  seqBytes : List Nat
  qualScores : List Nat
  auxBytes : List Nat
  auxTags : List (List Nat)
deriving DecidableEq

/-- Translation of the guard and body of `Record.unmarshalData`: a no-op when
already unmarshalled or when the record pointer is nil, otherwise the decode
fills the cached fields and sets `unmarshalled`. -/
def unmarshalStep (e : ByteOrder) (r : RecModel) : RecModel :=
  if r.unmarshalled then r
  else
    match r.b with
    | none => r
    | some c =>
      let f := unmarshalData e c.lQname c.nCigar c.lQseq c.lAux c.data
      { r with
        nameStr := f.nameStr
        cigar := f.cigar
        seqBytes := f.seqBytes
        qualScores := f.qualScores
        auxBytes := f.auxBytes
        auxTags := f.auxTags
        unmarshalled := true }

/-- `Record.Name`: unmarshal, then return the cached name.  No nil check is
made on the payload pointer, so the call cannot fail. -/
def nameAcc (e : ByteOrder) (r : RecModel) : Except GoError (List Nat) :=
  Except.ok (unmarshalStep e r).nameStr

/-- `Record.Seq`. -/
def seqAcc (e : ByteOrder) (r : RecModel) : Except GoError (List Nat) :=
  Except.ok (unmarshalStep e r).seqBytes

/-- `Record.Quality`. -/
def qualityAcc (e : ByteOrder) (r : RecModel) : Except GoError (List Nat) :=
  Except.ok (unmarshalStep e r).qualScores

/-- `Record.Cigar`. -/
def cigarAcc (e : ByteOrder) (r : RecModel) : Except GoError (List Nat) :=
  Except.ok (unmarshalStep e r).cigar

/-- `Record.Tags`. -/
def tagsAcc (e : ByteOrder) (r : RecModel) : Except GoError (List (List Nat)) :=
  Except.ok (unmarshalStep e r).auxTags

/-- `Record.Start`: reads `pos()` from the `bam1_t`, whose helper panics with
the value-is-nil error on a nil pointer (modelled as `Except.error`). -/
def startAcc (r : RecModel) : Except GoError Int :=
  match r.b with
  | none => Except.error GoError.valueIsNil
  | some c => Except.ok c.pos

/-- `Record.Flags` via `flag()`. -/
def flagsAcc (r : RecModel) : Except GoError Nat :=
  match r.b with
  | none => Except.error GoError.valueIsNil
  | some c => Except.ok c.flag

/-- `Record.Score` via `qual()`. -/
def scoreAcc (r : RecModel) : Except GoError Nat :=
  match r.b with
  | none => Except.error GoError.valueIsNil
  | some c => Except.ok c.qual

/-- `Record.RefID`: unmarshal (a no-op on a nil pointer), then read `tid()`,
which panics on a nil pointer. -/
def refIDAcc (e : ByteOrder) (r : RecModel) : Except GoError Int :=
  match (unmarshalStep e r).b with
  | none => Except.error GoError.valueIsNil
  | some c => Except.ok c.tid

/-- `Record.SetSeq`: store the sequence and clear the consistency flag. -/
def setSeq (r : RecModel) (s : List Nat) : RecModel :=
  { r with seqBytes := s, marshalled := false }

/-- `Record.SetQuality`: store the scores and clear the consistency flag. -/
def setQuality (r : RecModel) (q : List Nat) : RecModel :=
  { r with qualScores := q, marshalled := false }

/-- `Record.SetFlags`: writes the flag word straight into the `bam1_t` core
through `setFlag`, which panics on a nil pointer; the `marshalled` flag is
not touched. -/
def setFlags (r : RecModel) (fl : Nat) : Except GoError RecModel :=
  match r.b with
  | none => Except.error GoError.valueIsNil
  | some c => Except.ok { r with b := some { c with flag := fl } }

/-- The re-marshalling step of `BAMFile.Write` (bam.go): when the consistency
flag is down, rebuild the payload with `marshalData`, store it and the
updated description fields, and raise the flag; otherwise the record is
emitted unchanged.  (`marshalData` starts by calling `setLQname`, which
panics on a nil pointer; that path is left as the identity here.) -/
def writePrep (e : ByteOrder) (r : RecModel) : RecModel :=
  if r.marshalled then r
  else
    match r.b with
    | none => r
    | some c =>
      let m := marshalData e
        { nameStr := r.nameStr
          cigar := r.cigar
          seqBytes := r.seqBytes
          qualScores := r.qualScores
          auxBytes := r.auxBytes
          auxTags := r.auxTags }
      { r with
        b := some { c with
          lQname := m.lQname
          nCigar := m.nCigar
          lQseq := m.lQseq
          lAux := m.lAux
          data := m.data }
        marshalled := true }

/- File handles (index.go, bam.go, sam.go). -/

/-- The open-stream data behind `samFile.fp`: the libbam type flags of the
stream (bit 1 set for BAM files). -/
structure SamFp where
  fileType : Nat
deriving DecidableEq

/-- `samFile`: a possibly nil `samfile_t` pointer. -/
structure SamFileModel where
  fp : Option SamFp
deriving DecidableEq

/-- `bamTypeFlags`: the BAM-file bit (`bamFile = iota + 1`). -/
def bamFileFlag : Nat := 1

/-- `bamTypeFlags`: the read-mode bit. -/
def readFileFlag : Nat := 2

/-- Translation of `samFile.samClose` (index.go): on a nil stream pointer it
returns the value-is-nil error and changes nothing; otherwise it releases the
stream, clears the pointer and returns no error. -/
def samCloseM (sf : SamFileModel) : SamFileModel × Option GoError :=
  match sf.fp with
  | none => (sf, some GoError.valueIsNil)
  | some _ => ({ fp := none }, none)

/-- Translation of `BAMFile.Close` (bam.go): a nil handle is a no-op
returning nil, otherwise defer to `samClose`. -/
def bamFileClose (h : Option SamFileModel) : Option SamFileModel × Option GoError :=
  match h with
  | none => (none, none)
  | some sf =>
    let p := samCloseM sf
    (some p.1, p.2)

/-- An in-memory BAM index (`bamIndex`): a possibly nil `bam_index_t`
pointer whose payload (candidate block offsets) is left abstract. -/
structure BamIndexModel where
  idx : Option (List Nat)
deriving DecidableEq

/-- The record-pump loop of `samFile.bamFetch`: the collaborator supplies the
successive `bam_iter_read` results as (return code, record) pairs; a negative
code ends the iteration, otherwise the callback receives the record and may
break.  The result is the final read code, the error slot (always nil inside
the loop), and the list of records handed to the callback. -/
def fetchLoop : List (Int × BamCoreModel) → (BamCoreModel → Bool) →
    Int × Option GoError × List BamCoreModel
  | [], _ => (-1, none, [])
  | (code, rec) :: rest, fn =>
    if code < 0 then (code, none, [])
    else if fn rec then (code, none, [rec])
    else
      let p := fetchLoop rest fn
      (p.1, p.2.1, rec :: p.2.2)

/-- Translation of `samFile.bamFetch` (index.go): nil stream or nil index
yield the value-is-nil error; a stream whose type flags lack the BAM bit
yields the not-bam-file error with no record visited; otherwise the iterator
loop runs. -/
def bamFetch (sf : SamFileModel) (bi : BamIndexModel)
    (reads : List (Int × BamCoreModel)) (fn : BamCoreModel → Bool) :
    Int × Option GoError × List BamCoreModel :=
  match sf.fp, bi.idx with
  | none, _ => (0, some GoError.valueIsNil, [])
  | some _, none => (0, some GoError.valueIsNil, [])
  | some fp, some _ =>
    if fp.fileType &&& bamFileFlag = 0 then (0, some GoError.notBamFile, [])
    else fetchLoop reads fn

/-- Header model: reference-sequence name and length tables plus the raw
header text, the data behind `*Header`. -/
structure HeaderModel where
  targetNames : List (List Nat)
  targetLengths : List Nat
  text : List Nat
deriving DecidableEq

/-- File open modes used by the create/open wrappers. -/
inductive Mode
  | rMode
  | wMode
  | whMode
  | rbMode
  | wbMode
  | wbuMode
deriving DecidableEq

/-- `bWModes` (bam.go). -/
def bWModes : List Mode := [Mode.wbMode, Mode.wbuMode]

/-- `tWModes` (sam.go). -/
def tWModes : List Mode := [Mode.wMode, Mode.whMode]

/-- Translation of `CreateBAM` (bam.go): pick the compressed or uncompressed
write mode, fail with the no-header error before any open attempt when the
header reference is nil, otherwise call the open collaborator.  The second
component records the open calls made. -/
def createBAM (samOpenFn : Nat → Mode → Except GoError SamFileModel)
    (filename : Nat) (ref : Option HeaderModel) (comp : Bool) :
    Except GoError SamFileModel × List (Nat × Mode) :=
  let mode := if comp then bWModes.getD 0 Mode.wbMode else bWModes.getD 1 Mode.wbuMode
  match ref with
  | none => (Except.error GoError.noHeader, [])
  | some _ =>
    match samOpenFn filename mode with
    | Except.error err => (Except.error err, [(filename, mode)])
    | Except.ok sf => (Except.ok sf, [(filename, mode)])

/-- Translation of `CreateSAM` (revised sam.go): pick the with-header or
plain text write mode, fail with the no-header error before any open attempt
when the header reference is nil, otherwise call the open collaborator. -/
def createSAM (samOpenFn : Nat → Mode → Except GoError SamFileModel)
    (filename : Nat) (ref : Option HeaderModel) (dh : Bool) :
    Except GoError SamFileModel × List (Nat × Mode) :=
  let mode := if dh then tWModes.getD 1 Mode.whMode else tWModes.getD 0 Mode.wMode
  match ref with
  | none => (Except.error GoError.noHeader, [])
  | some _ =>
    match samOpenFn filename mode with
    | Except.error err => (Except.error err, [(filename, mode)])
    | Except.ok sf => (Except.ok sf, [(filename, mode)])

/- Concrete values used by witnesses and counterexamples. -/

/-- A core record value with empty payload fields. -/
def coreZero : BamCoreModel :=
  { tid := 0, pos := 0, bin := 0, qual := 0, lQname := 0, flag := 0, nCigar := 0
    lQseq := 0, mtid := 0, mpos := 0, isize := 0, lAux := 0, data := [] }

/-- A record whose payload pointer is nil and whose cached fields are
empty, as produced by an uninitialized `Record`. -/
def recNoPayload : RecModel :=
  { b := none, unmarshalled := false, marshalled := false, nameStr := []
    cigar := [], seqBytes := [], qualScores := [], auxBytes := [], auxTags := [] }

/-- A freshly read record (payload present, `marshalled` set). -/
def recRead : RecModel :=
  { b := some coreZero, unmarshalled := false, marshalled := true, nameStr := []
    cigar := [], seqBytes := [], qualScores := [], auxBytes := [], auxTags := [] }

/-- Record fields with an empty sequence but one quality byte, violating the
length invariant between the two. -/
def recShortSeq : GoRecordFields :=
  { nameStr := [], cigar := [], seqBytes := [], qualScores := [42]
    auxBytes := [], auxTags := [] }

/-- Record fields within all wire-format bounds: name `r`, one 10M CIGAR
operation, sequence `AC`, two quality scores, and one fixed-width aux tag
`NM:C:5`. -/
def recGood : GoRecordFields :=
  { nameStr := [114], cigar := [160], seqBytes := [65, 67], qualScores := [30, 31]
    auxBytes := [78, 77, 67, 5], auxTags := [[78, 77, 67, 5]] }

/- General helper lemmas. -/

theorem writeU32_length (e : ByteOrder) (v : Nat) : (writeU32 e v).length = 4 := by
  cases e <;> rfl

theorem readU32_writeU32 (e : ByteOrder) (v : Nat) (h : v < 4294967296) :
    readU32 e (writeU32 e v) = v := by
  cases e <;> simp [readU32, writeU32] <;> omega

theorem toInt32_of_lt (n : Nat) (h : n < 2147483648) : toInt32 n = (n : Int) := by
  unfold toInt32
  rw [Nat.mod_eq_of_lt (by omega)]
  simp [h]

theorem toInt32_toNat_of_lt (n : Nat) (h : n < 2147483648) : (toInt32 n).toNat = n := by
  rw [toInt32_of_lt n h]; simp

theorem getD_map_range (f : Nat → Nat) (n j : Nat) (h : j < n) :
    ((List.range n).map f).getD j 0 = f j := by
  rw [List.getD_eq_getElem?_getD]
  simp [List.getElem?_map, List.getElem?_range h]

theorem getD_eq_getElem (xs : List Nat) (i : Nat) (h : i < xs.length) :
    xs.getD i 0 = xs[i] := by
  rw [List.getD_eq_getElem?_getD, List.getElem?_eq_getElem h]; rfl

theorem nybble_high : ∀ a < 16, ∀ b < 16, ((a <<< 4) ||| b) >>> 4 = a := by decide

theorem nybble_low : ∀ a < 16, ∀ b < 16, ((a <<< 4) ||| b) &&& 15 = b := by decide

set_option maxRecDepth 4096 in
theorem bamNT16Table_lt_bounded : ∀ c < 256, bamNT16Table c < 16 := by decide

set_option maxRecDepth 4096 in
theorem bamNT16Table_lt (c : Nat) : bamNT16Table c < 16 := by
  by_cases h : c < 256
  · exact bamNT16Table_lt_bounded c h
  · unfold bamNT16Table
    rw [List.getD_eq_default]
    · omega
    · have hl : bamNT16TableList.length = 256 := by rfl
      omega

set_option maxRecDepth 4096 in
theorem rev_table_id : ∀ b ∈ nt16Symbols, bamNT16TableRev (bamNT16Table b) = b := by decide

theorem seq_roundtrip (s : List Nat) (hs : ∀ b ∈ s, b ∈ nt16Symbols) :
    unmarshalSeqBytes (marshalSeqBytes s) s.length = s := by
  apply List.ext_getElem
  · simp [unmarshalSeqBytes]
  intro i h1 h2
  simp only [unmarshalSeqBytes, List.getElem_map, List.getElem_range]
  have hps : (marshalSeqBytes s).getD (i / 2) 0 =
      (bamNT16Table (s.getD (2 * (i / 2)) 0) <<< 4) |||
        (if 2 * (i / 2) + 1 < s.length then bamNT16Table (s.getD (2 * (i / 2) + 1) 0) else 0) := by
    unfold marshalSeqBytes
    exact getD_map_range _ _ _ (by omega)
  have hmem : s[i] ∈ s := List.getElem_mem h2
  rcases Nat.mod_two_eq_zero_or_one i with hmod | hmod
  · have hi : 2 * (i / 2) = i := by omega
    rw [hps, hi, getD_eq_getElem s i h2]
    have ha : bamNT16Table s[i] < 16 := bamNT16Table_lt _
    simp only [hmod, Nat.reduceBEq, if_true]
    by_cases hin : i + 1 < s.length
    · rw [if_pos (by omega)]
      rw [nybble_high _ ha _ (bamNT16Table_lt _)]
      exact rev_table_id _ (hs _ hmem)
    · rw [if_neg (by omega)]
      rw [nybble_high _ ha 0 (by omega)]
      exact rev_table_id _ (hs _ hmem)
  · have hi : 2 * (i / 2) + 1 = i := by omega
    rw [hps, hi, getD_eq_getElem s i h2, if_pos h2]
    have ha : bamNT16Table (s.getD (2 * (i / 2)) 0) < 16 := bamNT16Table_lt _
    simp only [hmod]
    rw [if_neg (by simp)]
    rw [nybble_low _ ha _ (bamNT16Table_lt _)]
    exact rev_table_id _ (hs _ hmem)

/- Bit lemmas for the flags renderer. -/

theorem ldiff_and_two_pow_of_testBit (f m k : Nat) (h : m.testBit k = true) :
    Nat.ldiff f m &&& 2 ^ k = 0 := by
  rw [Nat.and_two_pow, Nat.testBit_ldiff, h]
  simp

theorem ldiff_and_two_pow_of_not_testBit (f m k : Nat) (h : m.testBit k = false) :
    Nat.ldiff f m &&& 2 ^ k = f &&& 2 ^ k := by
  rw [Nat.and_two_pow, Nat.testBit_ldiff, h, Nat.and_two_pow]
  simp

theorem end_foldl (l : List Nat) : ∀ acc : Nat,
    l.foldl (fun mlen co => if cigarOpType co = CigarMatch then mlen + cigarOpLen co else mlen) acc
      = acc + ((l.filter (fun co => cigarOpType co == CigarMatch)).map cigarOpLen).sum := by
  induction l with
  | nil => intro acc; simp
  | cons co rest ih =>
    intro acc
    by_cases hco : cigarOpType co = CigarMatch
    · simp only [List.foldl_cons, List.filter_cons, hco, if_true, beq_self_eq_true,
        List.map_cons, List.sum_cons, ih]
      omega
    · simp only [List.foldl_cons, List.filter_cons, if_neg hco, ih]
      rw [if_neg (by simpa using hco)]

/-- C3 (amended): `Record.End` adds to the start position the run lengths of
exactly those CIGAR operations whose type is the match type `M`;
sequence-match and sequence-mismatch operations, like all other types,
contribute nothing.  A record at start 100 with operations `[10M, 2I, 5M]`
still has end 115. -/
theorem recordEnd_match_only :
    (∀ (pos : Int) (cigar : List Nat),
      recordEnd pos cigar =
        pos + (((cigar.filter (fun co => cigarOpType co == CigarMatch)).map cigarOpLen).sum : Nat)) ∧
    recordEnd 100 [160, 33, 80] = 115 := by
  constructor
  · intro pos cigar
    unfold recordEnd
    rw [end_foldl]
    simp
  · decide

/-- C3 counterexample: at start 100 with operations `[10M, 5=]` the code
computes end 110, while the specified rule (match, sequence-match and
sequence-mismatch all contributing) yields 115. -/
theorem recordEnd_spec_counterexample :
    recordEnd 100 [160, 87] = 110 ∧ specEndMMX 100 [160, 87] = 115 ∧
      recordEnd 100 [160, 87] ≠ specEndMMX 100 [160, 87] := by decide

/-- C5 counterexample: the digit byte 48 is outside the 16 supported symbols
yet is encoded as code 1 (the code of A, decoding to byte 65), not as the
sentinel 15. -/
theorem nt16_unknown_counterexample :
    (48 ∉ nt16Symbols) ∧ bamNT16Table 48 = 1 ∧ bamNT16Table 48 ≠ 15 ∧
      bamNT16TableRev (bamNT16Table 48) = 65 := by decide

set_option maxRecDepth 4096 in
/-- C5 (amended): encoding then decoding any sequence over the 16 supported
symbols returns it unchanged; bytes outside the recognized set (the 16
symbols, their lower-case forms and the digits 0 to 3) are encoded, without
error, as the unknown code 15, which decodes to N (byte 78). -/
theorem seq_nybble_claims :
    (∀ s : List Nat, (∀ b ∈ s, b ∈ nt16Symbols) →
      unmarshalSeqBytes (marshalSeqBytes s) s.length = s) ∧
    (∀ b < 256, b ∉ nt16Recognized → bamNT16Table b = 15) ∧
    bamNT16TableRev 15 = 78 := by
  refine ⟨seq_roundtrip, ?_, by decide⟩
  decide

/-- Witness for the sequence nybble claims at the sequence `ACG` and the
unrecognized byte 42. -/
theorem seq_nybble_claims_witness :
    unmarshalSeqBytes (marshalSeqBytes [65, 67, 71]) 3 = [65, 67, 71] ∧
      bamNT16Table 42 = 15 := by
  constructor
  · exact seq_nybble_claims.1 [65, 67, 71] (by decide)
  · exact seq_nybble_claims.2.1 42 (by decide) (by decide)

/-- C4: `Flags.String` of a value with the paired bit 0x01 unset renders the
five mate-dependent positions (proper-pair, mate-unmapped, mate-reverse,
first-in-pair, second-in-pair) as dashes regardless of the stored bits, and
with the paired bit set all 11 positions of the 11-character rendering show
their literal bit values. -/
theorem flagsString_paired_gate (f : Nat) :
    (f &&& 1 = 0 →
      flagsString f =
        ['-', '-', if f &&& 4 != 0 then 'u' else '-', '-',
         if f &&& 16 != 0 then 'r' else '-', '-', '-', '-',
         if f &&& 256 != 0 then 's' else '-', if f &&& 512 != 0 then 'f' else '-',
         if f &&& 1024 != 0 then 'd' else '-']) ∧
    (f &&& 1 ≠ 0 →
      flagsString f =
        [if f &&& 1 != 0 then 'p' else '-', if f &&& 2 != 0 then 'P' else '-',
         if f &&& 4 != 0 then 'u' else '-', if f &&& 8 != 0 then 'U' else '-',
         if f &&& 16 != 0 then 'r' else '-', if f &&& 32 != 0 then 'R' else '-',
         if f &&& 64 != 0 then '1' else '-', if f &&& 128 != 0 then '2' else '-',
         if f &&& 256 != 0 then 's' else '-', if f &&& 512 != 0 then 'f' else '-',
         if f &&& 1024 != 0 then 'd' else '-']) := by
  constructor
  · intro h
    have t0 : Nat.ldiff f pairedMask &&& 1 = 0 := by
      have hx := ldiff_and_two_pow_of_not_testBit f pairedMask 0 (by decide)
      rw [pow_zero] at hx
      rw [hx, h]
    have t1 : Nat.ldiff f pairedMask &&& 2 = 0 := by
      have hx := ldiff_and_two_pow_of_testBit f pairedMask 1 (by decide)
      norm_num at hx
      exact hx
    have t2 : Nat.ldiff f pairedMask &&& 4 = f &&& 4 := by
      have hx := ldiff_and_two_pow_of_not_testBit f pairedMask 2 (by decide)
      norm_num at hx
      exact hx
    have t3 : Nat.ldiff f pairedMask &&& 8 = 0 := by
      have hx := ldiff_and_two_pow_of_testBit f pairedMask 3 (by decide)
      norm_num at hx
      exact hx
    have t4 : Nat.ldiff f pairedMask &&& 16 = f &&& 16 := by
      have hx := ldiff_and_two_pow_of_not_testBit f pairedMask 4 (by decide)
      norm_num at hx
      exact hx
    have t5 : Nat.ldiff f pairedMask &&& 32 = 0 := by
      have hx := ldiff_and_two_pow_of_testBit f pairedMask 5 (by decide)
      norm_num at hx
      exact hx
    have t6 : Nat.ldiff f pairedMask &&& 64 = 0 := by
      have hx := ldiff_and_two_pow_of_testBit f pairedMask 6 (by decide)
      norm_num at hx
      exact hx
    have t7 : Nat.ldiff f pairedMask &&& 128 = 0 := by
      have hx := ldiff_and_two_pow_of_testBit f pairedMask 7 (by decide)
      norm_num at hx
      exact hx
    have t8 : Nat.ldiff f pairedMask &&& 256 = f &&& 256 := by
      have hx := ldiff_and_two_pow_of_not_testBit f pairedMask 8 (by decide)
      norm_num at hx
      exact hx
    have t9 : Nat.ldiff f pairedMask &&& 512 = f &&& 512 := by
      have hx := ldiff_and_two_pow_of_not_testBit f pairedMask 9 (by decide)
      norm_num at hx
      exact hx
    have t10 : Nat.ldiff f pairedMask &&& 1024 = f &&& 1024 := by
      have hx := ldiff_and_two_pow_of_not_testBit f pairedMask 10 (by decide)
      norm_num at hx
      exact hx
    have hguard : (f &&& 1 == 0) = true := by simp [h]
    unfold flagsString flagChars
    rw [hguard]
    simp only [if_true, List.enum, List.enumFrom, List.map]
    norm_num [Nat.one_shiftLeft, t0, t1, t2, t3, t4, t5, t6, t7, t8, t9, t10]
  · intro h
    have h1 : f &&& 1 = 1 := by
      have h2 := Nat.and_one_is_mod f
      omega
    have hguard : (f &&& 1 == 0) = false := by simp [h1]
    unfold flagsString flagChars
    rw [hguard]
    simp only [Bool.false_eq_true, if_false, List.enum, List.enumFrom, List.map]
    norm_num [Nat.one_shiftLeft, h1]

/-- Witness for the flags rendering claims at the values 2 (proper-pair set
but paired unset, rendered all dashes) and 3 (paired and proper-pair set). -/
theorem flagsString_paired_gate_witness :
    flagsString 2 = ['-', '-', if 2 &&& 4 != 0 then 'u' else '-', '-',
      if 2 &&& 16 != 0 then 'r' else '-', '-', '-', '-',
      if 2 &&& 256 != 0 then 's' else '-', if 2 &&& 512 != 0 then 'f' else '-',
      if 2 &&& 1024 != 0 then 'd' else '-'] ∧
    flagsString 3 = [if 3 &&& 1 != 0 then 'p' else '-', if 3 &&& 2 != 0 then 'P' else '-',
      if 3 &&& 4 != 0 then 'u' else '-', if 3 &&& 8 != 0 then 'U' else '-',
      if 3 &&& 16 != 0 then 'r' else '-', if 3 &&& 32 != 0 then 'R' else '-',
      if 3 &&& 64 != 0 then '1' else '-', if 3 &&& 128 != 0 then '2' else '-',
      if 3 &&& 256 != 0 then 's' else '-', if 3 &&& 512 != 0 then 'f' else '-',
      if 3 &&& 1024 != 0 then 'd' else '-'] :=
  ⟨(flagsString_paired_gate 2).1 (by decide), (flagsString_paired_gate 3).2 (by decide)⟩

/-- C6 counterexample: on a freshly read record (consistency flag set),
`SetFlags` leaves the `marshalled` flag set; the claim requires it to become
false. -/
theorem setFlags_marshalled_counterexample :
    Except.map RecModel.marshalled (setFlags recRead 4) = Except.ok true ∧
      (Except.ok true : Except GoError Bool) ≠ Except.ok false := by
  refine ⟨rfl, by simp⟩

/-- C6 (amended): `SetSeq` and `SetQuality` clear the `marshalled`
consistency flag, so the next `Write` rebuilds the payload from the
structured fields before emitting it; `SetFlags` writes the flag word
directly into the core fields and leaves the consistency flag unchanged;
`Write` passes an already-consistent record through unchanged. -/
theorem mutators_marshalled_flag (e : ByteOrder) (r r2 : RecModel) (s q : List Nat) (fl : Nat) :
    (setSeq r s).marshalled = false ∧
    (setQuality r q).marshalled = false ∧
    (setFlags r fl = Except.ok r2 → r2.marshalled = r.marshalled) ∧
    ((writePrep e r).marshalled = true ∨ r.b = none) ∧
    (r.marshalled = true → writePrep e r = r) := by
  refine ⟨rfl, rfl, ?_, ?_, ?_⟩
  · intro hok
    unfold setFlags at hok
    cases hb : r.b with
    | none =>
      rw [hb] at hok
      exact absurd hok (by simp)
    | some c =>
      rw [hb] at hok
      simp only [Except.ok.injEq] at hok
      rw [← hok]
  · unfold writePrep
    by_cases hm : r.marshalled
    · left; simp [hm]
    · cases hb : r.b with
      | none => right; rfl
      | some c => left; simp [hm]
  · intro hm
    unfold writePrep
    rw [hm]
    simp

/-- Witness for the mutator claims: `SetSeq` on a freshly read record clears
the flag, and the concrete `SetFlags` result keeps it. -/
theorem mutators_marshalled_flag_witness :
    (setSeq recRead [65]).marshalled = false ∧
      RecModel.marshalled { recRead with b := some { coreZero with flag := 4 } } =
        recRead.marshalled :=
  ⟨(mutators_marshalled_flag ByteOrder.little recRead
      { recRead with b := some { coreZero with flag := 4 } } [65] [] 4).1,
   (mutators_marshalled_flag ByteOrder.little recRead
      { recRead with b := some { coreZero with flag := 4 } } [65] [] 4).2.2.1 rfl⟩

/-- C7 counterexample: after a successful `Close`, a second `Close` on the
same handle returns the value-is-nil error, not nil. -/
theorem close_idempotent_counterexample :
    (bamFileClose (some { fp := some { fileType := 3 } })).2 = none ∧
    (bamFileClose (bamFileClose (some { fp := some { fileType := 3 } })).1).2 =
      some GoError.valueIsNil ∧
    some GoError.valueIsNil ≠ (none : Option GoError) := by
  refine ⟨rfl, rfl, by simp⟩

/-- C7 (amended): `Close` on a nil handle is a no-op returning nil; closing
an open handle clears the stream pointer and returns nil; `Close` on an
already-closed or never-opened handle (nil stream pointer) leaves the state
unchanged and returns the value-is-nil error rather than nil. -/
theorem close_behavior (fp : SamFp) :
    bamFileClose none = (none, none) ∧
    bamFileClose (some { fp := some fp }) = (some { fp := none }, none) ∧
    bamFileClose (some { fp := none }) = (some { fp := none }, some GoError.valueIsNil) :=
  ⟨rfl, rfl, rfl⟩

/-- C8 counterexample: on a record with no payload, `Name` and `Seq` return
the empty cached value without failing, rather than panicking as the claim
requires of every accessor. -/
theorem accessors_nil_counterexample :
    nameAcc ByteOrder.little recNoPayload = Except.ok [] ∧
    seqAcc ByteOrder.little recNoPayload = Except.ok [] ∧
    Except.ok ([] : List Nat) ≠ (Except.error GoError.valueIsNil : Except GoError (List Nat)) := by
  refine ⟨rfl, rfl, by simp⟩

/-- C8 (amended): on a record whose payload pointer is absent the decode
step is a no-op leaving the cached fields untouched; the payload-derived
accessors (`Name`, `Seq`, `Quality`, `Cigar`, `Tags`) therefore return the
(empty) cached values silently, while the core-field accessors (`Start`,
`Flags`, `Score`, `RefID`) fail loudly with the value-is-nil panic. -/
theorem accessors_nil_behavior (e : ByteOrder) (r : RecModel) (h : r.b = none) :
    unmarshalStep e r = r ∧
    nameAcc e r = Except.ok r.nameStr ∧
    seqAcc e r = Except.ok r.seqBytes ∧
    qualityAcc e r = Except.ok r.qualScores ∧
    cigarAcc e r = Except.ok r.cigar ∧
    tagsAcc e r = Except.ok r.auxTags ∧
    startAcc r = Except.error GoError.valueIsNil ∧
    flagsAcc r = Except.error GoError.valueIsNil ∧
    scoreAcc r = Except.error GoError.valueIsNil ∧
    refIDAcc e r = Except.error GoError.valueIsNil := by
  have hu : unmarshalStep e r = r := by
    unfold unmarshalStep
    rw [h]
    by_cases hm : r.unmarshalled <;> simp [hm]
  refine ⟨hu, ?_, ?_, ?_, ?_, ?_, ?_, ?_, ?_, ?_⟩
  · unfold nameAcc; rw [hu]
  · unfold seqAcc; rw [hu]
  · unfold qualityAcc; rw [hu]
  · unfold cigarAcc; rw [hu]
  · unfold tagsAcc; rw [hu]
  · unfold startAcc; rw [h]
  · unfold flagsAcc; rw [h]
  · unfold scoreAcc; rw [h]
  · unfold refIDAcc; rw [hu, h]

/-- Witness for the nil-payload behavior at a concrete uninitialized
record. -/
theorem accessors_nil_behavior_witness :
    unmarshalStep ByteOrder.little recNoPayload = recNoPayload ∧
      startAcc recNoPayload = Except.error GoError.valueIsNil :=
  ⟨(accessors_nil_behavior ByteOrder.little recNoPayload rfl).1,
   (accessors_nil_behavior ByteOrder.little recNoPayload rfl).2.2.2.2.2.2.1⟩

/-- C9: fetching through an open handle whose type flags lack the BAM bit,
with any loaded index, any iterator contents and any visitor, returns the
not-bam-file error with a zero count and an empty visit list (the visitor is
never invoked). -/
theorem fetch_not_bam (ft : Nat) (offsets : List Nat)
    (reads : List (Int × BamCoreModel)) (fn : BamCoreModel → Bool)
    (h : ft &&& bamFileFlag = 0) :
    bamFetch { fp := some { fileType := ft } } { idx := some offsets } reads fn =
      (0, some GoError.notBamFile, []) := by
  unfold bamFetch
  simp [h]

/-- Witness for the non-BAM fetch error at a read-mode text handle. -/
theorem fetch_not_bam_witness :
    bamFetch { fp := some { fileType := 2 } } { idx := some [] } []
        (fun _ => true) = (0, some GoError.notBamFile, []) :=
  fetch_not_bam 2 [] [] (fun _ => true) (by decide)

/-- C10: creating a BAM or SAM file for writing with a nil header reference
fails immediately with the no-header error and no file handle, for every
filename, compression choice and header-inclusion choice, with no open call
reaching the collaborator. -/
theorem create_nil_header (samOpenFn : Nat → Mode → Except GoError SamFileModel)
    (filename : Nat) (comp dh : Bool) :
    createBAM samOpenFn filename none comp = (Except.error GoError.noHeader, []) ∧
    createSAM samOpenFn filename none dh = (Except.error GoError.noHeader, []) :=
  ⟨rfl, rfl⟩

/- Aux codec round-trip lemmas. -/

theorem buildAux_cons (it : List Nat) (rest : List (List Nat)) :
    buildAux (it :: rest) = it ++ buildAux rest := by
  simp [buildAux]

theorem wf_length_ge4 (e : ByteOrder) (it : List Nat) (h : WfAuxItem e it) :
    4 ≤ it.length := by
  rcases h with ⟨hw, hl⟩ | ⟨_, _, hl8, _⟩
  · omega
  · omega

theorem buildAux_length_ge (e : ByteOrder) (items : List (List Nat))
    (hwf : ∀ it ∈ items, WfAuxItem e it) : items.length ≤ (buildAux items).length := by
  induction items with
  | nil => simp [buildAux]
  | cons it rest ih =>
    rw [buildAux_cons]
    simp only [List.length_append, List.length_cons]
    have h4 := wf_length_ge4 e it (hwf it (by simp))
    have hr := ih (fun x hx => hwf x (by simp [hx]))
    omega

theorem parseAuxRec_buildAux (e : ByteOrder) :
    ∀ (items : List (List Nat)) (fuel : Nat),
      (∀ it ∈ items, WfAuxItem e it) → items.length < fuel →
      parseAuxRec e fuel (buildAux items) = items := by
  intro items
  induction items with
  | nil =>
    intro fuel _ hf
    obtain ⟨n, rfl⟩ : ∃ n, fuel = n + 1 := ⟨fuel - 1, by omega⟩
    simp [buildAux, parseAuxRec]
  | cons it rest ih =>
    intro fuel hwf hf
    obtain ⟨n, rfl⟩ : ∃ n, fuel = n + 1 := ⟨fuel - 1, by omega⟩
    rw [buildAux_cons]
    have hwit := hwf it (by simp)
    have h4 := wf_length_ge4 e it hwit
    have hlen : 2 < (it ++ buildAux rest).length := by simp; omega
    have ht2 : (it ++ buildAux rest).getD 2 0 = it.getD 2 0 :=
      List.getD_append _ _ _ _ (by omega)
    have hrest : parseAuxRec e n (buildAux rest) = rest :=
      ih n (fun x hx => hwf x (by simp [hx])) (by simp at hf; omega)
    rcases hwit with ⟨hw, hl⟩ | ⟨ht, hw, hl8, hmod, hcnt, hbytes⟩
    · -- fixed-width item: width jumps t, total length (jumps t).toNat + 3
      have hjl : it.length = (jumps (it.getD 2 0)).toNat + 3 := by omega
      simp only [parseAuxRec, ht2]
      rw [if_pos hlen, if_pos hw, List.take_left' hjl, List.drop_left' hjl, hrest]
    · -- array item: B with element width jumps (it.getD 3 0)
      have ht3 : (it ++ buildAux rest).getD 3 0 = it.getD 3 0 :=
        List.getD_append _ _ _ _ (by omega)
      have hj66 : jumps 66 = -1 := by decide
      have hd4 : (it ++ buildAux rest).drop 4 = it.drop 4 ++ buildAux rest := by
        rw [List.drop_append_eq_append_drop, Nat.sub_eq_zero_of_le (by omega), List.drop_zero]
      have ht4 : (it.drop 4 ++ buildAux rest).take 4 = (it.drop 4).take 4 := by
        rw [List.take_append_eq_append_take, Nat.sub_eq_zero_of_le (by simp; omega),
          List.take_zero, List.append_nil]
      have hread : readU32 e (((it ++ buildAux rest).drop 4).take 4) =
          (it.length - 8) / (jumps (it.getD 3 0)).toNat := by
        rw [hd4, ht4, hbytes]
        exact readU32_writeU32 e _ (by omega)
      have hwpos : ((jumps (it.getD 3 0)).toNat : Int) = jumps (it.getD 3 0) :=
        Int.toNat_of_nonneg (le_of_lt hw)
      have hcw : (it.length - 8) / (jumps (it.getD 3 0)).toNat *
          (jumps (it.getD 3 0)).toNat = it.length - 8 :=
        Nat.div_mul_cancel (Nat.dvd_of_mod_eq_zero hmod)
      have hjint : (((it.length - 8) / (jumps (it.getD 3 0)).toNat : Nat) : Int) *
          jumps (it.getD 3 0) + 8 = (it.length : Int) := by
        nth_rewrite 2 [← hwpos]
        rw [← Nat.cast_mul, hcw]
        omega
      simp only [parseAuxRec, ht2, ht3, ht, hj66]
      rw [if_pos hlen, if_neg (by norm_num), if_pos (by norm_num),
        if_neg (by norm_num), if_pos trivial]
      rw [hread, toInt32_of_lt _ hcnt, hjint, Int.toNat_natCast]
      rw [List.take_left, List.drop_left, hrest]

/-- C2 counterexample: the well-formed nul-terminated text block `XY Z a 0`
parses to one item holding the span without the terminator, so rebuilding
yields a block one byte shorter than the original. -/
theorem aux_roundtrip_counterexample :
    parseAux ByteOrder.little [88, 89, 90, 97, 0] = [[88, 89, 90, 97]] ∧
    buildAux (parseAux ByteOrder.little [88, 89, 90, 97, 0]) = [88, 89, 90, 97] ∧
    buildAux (parseAux ByteOrder.little [88, 89, 90, 97, 0]) ≠ [88, 89, 90, 97, 0] := by
  refine ⟨by decide, by decide, by decide⟩

/-- C2 (amended): for an aux block that is a concatenation of well-formed
fixed-width and array (type B) items, parsing recovers exactly those items
and re-serializing reproduces the block byte for byte.  Blocks holding Z or
H items are excluded: `parseAux` strips their nul terminator and `buildAux`
does not restore it (the TODO in the source notes this). -/
theorem aux_roundtrip (e : ByteOrder) (items : List (List Nat))
    (hwf : ∀ it ∈ items, WfAuxItem e it) :
    parseAux e (buildAux items) = items ∧
    buildAux (parseAux e (buildAux items)) = buildAux items := by
  have hp : parseAux e (buildAux items) = items := by
    unfold parseAux
    apply parseAuxRec_buildAux e items _ hwf
    have := buildAux_length_ge e items hwf
    omega
  exact ⟨hp, by rw [hp]⟩

/-- Witness for the aux round trip on a block holding one fixed-width item
and one B-array item. -/
theorem aux_roundtrip_witness :
    parseAux ByteOrder.little
        (buildAux [[78, 77, 67, 5], [88, 89, 66, 67, 2, 0, 0, 0, 7, 9]]) =
      [[78, 77, 67, 5], [88, 89, 66, 67, 2, 0, 0, 0, 7, 9]] ∧
    buildAux (parseAux ByteOrder.little
        (buildAux [[78, 77, 67, 5], [88, 89, 66, 67, 2, 0, 0, 0, 7, 9]])) =
      buildAux [[78, 77, 67, 5], [88, 89, 66, 67, 2, 0, 0, 0, 7, 9]] :=
  aux_roundtrip ByteOrder.little [[78, 77, 67, 5], [88, 89, 66, 67, 2, 0, 0, 0, 7, 9]]
    (by decide)

/- Record codec round-trip lemmas. -/

theorem flatMap_writeU32_length (e : ByteOrder) (l : List Nat) :
    (l.flatMap (writeU32 e)).length = 4 * l.length := by
  induction l with
  | nil => simp
  | cons v rest ih =>
    simp only [List.flatMap_cons, List.length_append, writeU32_length, ih, List.length_cons]
    omega

theorem flatMap_writeU32_chunk (e : ByteOrder) :
    ∀ (l : List Nat) (j : Nat) (hj : j < l.length),
      ((l.flatMap (writeU32 e)).drop (4 * j)).take 4 = writeU32 e l[j] := by
  intro l
  induction l with
  | nil => intro j hj; simp at hj
  | cons v rest ih =>
    intro j hj
    cases j with
    | zero =>
      simp only [List.flatMap_cons, Nat.mul_zero, List.drop_zero, List.getElem_cons_zero]
      exact List.take_left' (writeU32_length e v)
    | succ j2 =>
      simp only [List.flatMap_cons, List.getElem_cons_succ]
      rw [show 4 * (j2 + 1) = (writeU32 e v).length + 4 * j2 from by rw [writeU32_length]; ring]
      rw [List.drop_append_eq_append_drop, List.drop_of_length_le (by omega),
        Nat.add_sub_cancel_left, List.nil_append]
      exact ih j2 (by simpa using hj)

theorem cigar_decode (e : ByteOrder) (l : List Nat) (hco : ∀ co ∈ l, co < 4294967296) :
    (List.range l.length).map
      (fun j => readU32 e (((l.flatMap (writeU32 e)).drop (4 * j)).take 4)) = l := by
  apply List.ext_getElem
  · simp
  intro i h1 h2
  simp only [List.getElem_map, List.getElem_range]
  rw [flatMap_writeU32_chunk e l i h2]
  exact readU32_writeU32 e _ (hco _ (List.getElem_mem h2))

theorem marshalSeqBytes_length (s : List Nat) :
    (marshalSeqBytes s).length = (s.length + 1) / 2 := by
  simp [marshalSeqBytes]

/-- C1 (amended): unmarshalling the payload and the core description fields
produced by marshalling reproduces a record's name, CIGAR list, sequence
symbols, quality scores, aux bytes and parsed tag list exactly, under either
declared byte order, for every record within the wire format's bounds: a
name of at most 254 bytes, fewer than 16384 CIGAR operations (each a 32-bit
word), sequence symbols drawn from the 16 supported codes, exactly as many
quality scores as sequence symbols, sequence and aux block below 2^31
bytes, and a cached tag list equal to the parse of the aux bytes. -/
theorem marshal_unmarshal_roundtrip (e : ByteOrder)
    (name cigar seq qual aux : List Nat) (tags : List (List Nat))
    (hname : name.length ≤ 254)
    (hcig : cigar.length < 16384)
    (hco : ∀ co ∈ cigar, co < 4294967296)
    (hseq : ∀ b ∈ seq, b ∈ nt16Symbols)
    (hseqLen : seq.length < 2147483648)
    (hqual : qual.length = seq.length)
    (haux : aux.length < 2147483648)
    (htags : tags = parseAux e aux) :
    unmarshalData e
      (marshalData e ⟨name, cigar, seq, qual, aux, tags⟩).lQname
      (marshalData e ⟨name, cigar, seq, qual, aux, tags⟩).nCigar
      (marshalData e ⟨name, cigar, seq, qual, aux, tags⟩).lQseq
      (marshalData e ⟨name, cigar, seq, qual, aux, tags⟩).lAux
      (marshalData e ⟨name, cigar, seq, qual, aux, tags⟩).data =
      ⟨name, cigar, seq, qual, aux, tags⟩ := by
  have hlq : (name.length % 256 + 1) % 256 = name.length + 1 := by omega
  have hnc : cigar.length % 65536 = cigar.length := Nat.mod_eq_of_lt (by omega)
  have hclb : (cigar.length <<< 2) % 65536 = 4 * cigar.length := by
    rw [Nat.shiftLeft_eq, show cigar.length * 2 ^ 2 = 4 * cigar.length from by ring]
    exact Nat.mod_eq_of_lt (by omega)
  simp only [marshalData, unmarshalData, GoRecordFields.mk.injEq]
  rw [hlq, hnc, hclb, toInt32_toNat_of_lt _ hseqLen, toInt32_toNat_of_lt _ haux]
  simp only [List.append_assoc]
  have htakeName : ∀ X : List Nat, (name ++ ([0] ++ X)).take (name.length + 1 - 1) = name := by
    intro X
    rw [Nat.add_sub_cancel]
    exact List.take_left name _
  have hdropName : ∀ X : List Nat, (name ++ ([0] ++ X)).drop (name.length + 1) = X := by
    intro X
    rw [show name ++ ([0] ++ X) = (name ++ [0]) ++ X from by simp]
    exact List.drop_left' (by simp)
  have htakeCB : ∀ X : List Nat,
      (cigar.flatMap (writeU32 e) ++ X).take (4 * cigar.length) = cigar.flatMap (writeU32 e) :=
    fun X => List.take_left' (flatMap_writeU32_length e cigar)
  have hdropCB : ∀ X : List Nat, (cigar.flatMap (writeU32 e) ++ X).drop (4 * cigar.length) = X :=
    fun X => List.drop_left' (flatMap_writeU32_length e cigar)
  have htakeSB : ∀ X : List Nat,
      (marshalSeqBytes seq ++ X).take ((seq.length + 1) / 2) = marshalSeqBytes seq :=
    fun X => List.take_left' (marshalSeqBytes_length seq)
  have hdropSB : ∀ X : List Nat, (marshalSeqBytes seq ++ X).drop ((seq.length + 1) / 2) = X :=
    fun X => List.drop_left' (marshalSeqBytes_length seq)
  have htakeQ : (qual ++ aux).take seq.length = qual := List.take_left' hqual
  have hdropQ : (qual ++ aux).drop seq.length = aux := List.drop_left' hqual
  rw [htakeName, hdropName, htakeCB, hdropCB, htakeSB, hdropSB, htakeQ, hdropQ,
    List.take_length]
  refine ⟨rfl, ?_, ?_, rfl, rfl, ?_⟩
  · exact cigar_decode e cigar hco
  · exact seq_roundtrip seq hseq
  · exact htags.symm

/-- Witness for the record round trip at a concrete record: name `r`, one
10M CIGAR operation, sequence `AC`, two quality scores and one fixed-width
aux tag. -/
theorem marshal_unmarshal_roundtrip_witness :
    unmarshalData ByteOrder.little
      (marshalData ByteOrder.little recGood).lQname
      (marshalData ByteOrder.little recGood).nCigar
      (marshalData ByteOrder.little recGood).lQseq
      (marshalData ByteOrder.little recGood).lAux
      (marshalData ByteOrder.little recGood).data = recGood :=
  marshal_unmarshal_roundtrip ByteOrder.little [114] [160] [65, 67] [30, 31]
    [78, 77, 67, 5] [[78, 77, 67, 5]] (by decide) (by decide) (by decide) (by decide)
    (by decide) (by decide) (by decide) (by decide)

/-- C1 counterexample: a record whose quality array is longer than its
sequence (empty sequence, one quality byte) is constructible, but the
quality scores are not reproduced by the round trip: unmarshalling reads as
many quality bytes as the sequence length recorded at marshal time. -/
theorem marshal_unmarshal_counterexample :
    (unmarshalData ByteOrder.little
      (marshalData ByteOrder.little recShortSeq).lQname
      (marshalData ByteOrder.little recShortSeq).nCigar
      (marshalData ByteOrder.little recShortSeq).lQseq
      (marshalData ByteOrder.little recShortSeq).lAux
      (marshalData ByteOrder.little recShortSeq).data).qualScores = [] ∧
    recShortSeq.qualScores = [42] ∧
    (unmarshalData ByteOrder.little
      (marshalData ByteOrder.little recShortSeq).lQname
      (marshalData ByteOrder.little recShortSeq).nCigar
      (marshalData ByteOrder.little recShortSeq).lQseq
      (marshalData ByteOrder.little recShortSeq).lAux
      (marshalData ByteOrder.little recShortSeq).data) ≠ recShortSeq := by
  refine ⟨by decide, by decide, by decide⟩
